import Mathlib

/-!
Shallow embedding of Pegmatite's AST-construction core (src/ast.hh, src/ast.cc):
the reduction stack, the claiming algorithm `popFromASTStack`, the member-slot
strategies (`ASTPtr`, `ASTChild`, `ASTList`, `ASTValue`), `ASTContainer::construct`,
the `BindAST` reduction callback, the top-level `parse` driver, the typed
`ASTParserDelegate::parse` wrapper, and the `PEGMATITE_RTTI` downcast mechanism.

Modelling conventions:
- `InputRange` is the external Range/Position contract: positions are `Nat`,
  `rbegin`/`rend` stand for the C++ `begin()`/`end()` positions, compared with `<`.
- A C++ class in a `PEGMATITE_RTTI` single-inheritance hierarchy is identified
  with its chain of `classKind()` addresses, own class first, `ASTNode`'s last;
  the addresses themselves are modelled as `Nat`.
- `ASTStack` is `std::vector<ASTStackEntry>` with the vector *back* (the top,
  most recently pushed entry) as the *head* of the Lean list; `push_back` is
  `cons` and `pop_back` is `tail`.  Consequently the bottom-to-top (source
  left-to-right) order of a stack `st` is `st.reverse`.
- The `ErrorReporter` callback is modelled functionally: each operation returns
  the list of diagnostics it emitted, in emission order.  A diagnostic records
  the range and the type names the C++ message interpolates (via `demangle`/
  `typeid`), as class-kind ids.
- A failed `assert` (which aborts the process) is modelled by the operation
  returning `none` : an `Option` result of `none` means "the C++ aborted here".
- `unique_ptr` ownership transfer is modelled by moving the `ASTNode` value
  between the stack, slots, and results.
-/

namespace Pegmatite

/-- Modelled from the spec: the external Range/Position contract (parser.hh is
not part of the core source).  A half-open interval over the input with ordered
begin/end positions, used only for containment comparisons (`rbegin` = the
position of C++ `begin()`, `rend` = the position of C++ `end()`). -/
structure InputRange where
  rbegin : Nat
  rend : Nat
deriving DecidableEq

/-- A class in a `PEGMATITE_RTTI` hierarchy, identified with the list of
`classKind()` addresses along its single-inheritance chain: the class's own
id first, each superclass's id after it, `ASTNode`'s root id last. -/
abbrev ClassChain := List Nat

/-- The `classKind()` static of a class: the head of its chain (src/ast.hh
lines 83-87). -/
def classKind (t : ClassChain) : Nat := t.headD 0

/-- The `isa(char *x)` virtual defined by `PEGMATITE_RTTI` (src/ast.hh lines
89-93): `x == classKind() || superclass::isa(x)`, bottoming out at
`ASTNode::isa` (src/ast.hh lines 162-165), which compares against the root id
only.  Over the chain representation this is the recursion below; a valid
chain is nonempty, so the `[]` case is never reached by a real class. -/
def isa : ClassChain → Nat → Bool
  | [], _ => false
  | k :: rest, x => x == k || isa rest x

/-- A (heap-allocated) AST node: its dynamic class chain plus an identity `nid`
distinguishing distinct objects of the same class. -/
structure ASTNode where
  chain : ClassChain
  nid : Nat
deriving DecidableEq

/-- Embeds `ASTNode::get_as<T>()` for the non-`USE_RTTI` build (src/ast.hh lines
184-188): returns the same object if `isa(T::classKind())`, else null. -/
def get_as (t : ClassChain) (n : ASTNode) : Option ASTNode :=
  if isa n.chain (classKind t) then some n else none

/-- Embeds `ASTStackEntry = std::pair<const InputRange, std::unique_ptr<ASTNode>>`
(src/ast.hh line 67). -/
abbrev ASTStackEntry := InputRange × ASTNode

/-- Embeds `ASTStack = std::vector<ASTStackEntry>` (src/ast.hh line 70); the Lean
list's head is the vector's back (the top of the stack). -/
abbrev ASTStack := List ASTStackEntry

/-- A diagnostic passed to the `ErrorReporter` callback, recording the range
and the class names interpolated into the C++ message. -/
inductive Diag where
  /-- The message at src/ast.hh lines 305-306: range not contained in the
  claimer's range, for a non-optional slot expecting `expected`. -/
  | structuralMismatch (r : InputRange) (expected : Nat)
  /-- The message at src/ast.hh lines 316-318: in-range entry whose dynamic
  class `actual` is not an instance of `expected`. -/
  | typeMismatch (r : InputRange) (expected : Nat) (actual : Nat)
deriving DecidableEq

/-- Embeds `popFromASTStack<T, Optional>(r, st, err)` (src/ast.hh lines 282-332).
Returns `none` when the `assert(!st.empty())` fires (required slot, empty
stack); otherwise `some ((popped.first, popped.second), st', diags)` with the
stack after the call and the diagnostics reported to `err`. -/
def popFromASTStack (T : ClassChain) (Opt : Bool) (r : InputRange)
    (st : ASTStack) : Option ((Bool × Option ASTNode) × ASTStack × List Diag) :=
  if st.isEmpty && Opt then
    some ((false, none), st, [])
  else
    match st with
    | [] => none
    | e :: rest =>
      let childRange := e.1
      if childRange.rbegin < r.rbegin || childRange.rend > r.rend then
        if Opt then
          some ((true, none), st, [])
        else
          some ((false, none), st, [.structuralMismatch childRange (classKind T)])
      else
        let node := e.2
        let obj := get_as T node
        if obj.isNone && !Opt then
          some ((false, none), st,
            [.typeMismatch childRange (classKind T) (node.chain.headD 0)])
        else if Opt && obj.isNone then
          some ((false, none), st, [])
        else
          some ((true, obj), rest, [])

/-- Embeds `ASTPtr<T, Optional>::construct` (src/ast.hh lines 351-360): runs
`popFromASTStack` and, when `popped.first`, swaps the popped value into the
slot `ptr`.  Result: (return value, slot contents after, stack after,
diagnostics). -/
def ASTPtr.construct (T : ClassChain) (Opt : Bool) (ptr : Option ASTNode)
    (r : InputRange) (st : ASTStack) :
    Option (Bool × Option ASTNode × ASTStack × List Diag) :=
  (popFromASTStack T Opt r st).map fun p =>
    (p.1.1, if p.1.1 then p.1.2 else ptr, p.2.1, p.2.2)

/-- Embeds `ASTChild<T>::construct` (src/ast.hh lines 379-388): required pop, then
move-assigns the claimed value over the slot's current value. -/
def ASTChild.construct (T : ClassChain) (val : Option ASTNode)
    (r : InputRange) (st : ASTStack) :
    Option (Bool × Option ASTNode × ASTStack × List Diag) :=
  (popFromASTStack T false r st).map fun p =>
    (p.1.1, if p.1.1 then p.1.2 else val, p.2.1, p.2.2)

/-- Embeds `ASTList<T>::construct` (src/ast.hh lines 416-455): repeatedly examines the
stack top; stops with success when the stack is empty or the top entry's range
is not contained in `r`; returns `false` when an in-range top entry fails the
downcast; otherwise pops the entry and `push_front`s it onto the list `acc`.
The `ErrorReporter` parameter of the C++ function is unnamed and never
invoked, so no diagnostics are produced.  Result: (return value, list
contents after, stack after). -/
def ASTList.construct (T : ClassChain) (r : InputRange) :
    ASTStack → List ASTNode → Bool × List ASTNode × ASTStack
  | [], acc => (true, acc, [])
  | e :: rest, acc =>
    if e.1.rbegin < r.rbegin || e.1.rend > r.rend then
      (true, acc, e :: rest)
    else
      match get_as T e.2 with
      | none => (false, acc, e :: rest)
      | some obj => ASTList.construct T r rest (obj :: acc)

/-- An `ASTMember` slot registered in a container's `members` vector: one of
the four slot strategies, carrying its current field state.  `ASTValue`'s
`construct` (src/ast.hh lines 586-591) only reads the characters of its own
range via `constructValue`; the adopted scalar is modelled by the range it was
parsed from. -/
inductive ASTMember where
  /-- An `ASTPtr<T, opt>` slot with current pointer value `val` (src/ast.hh line 339). -/
  | ptr (T : ClassChain) (opt : Bool) (val : Option ASTNode)
  /-- An `ASTChild<T>` slot with current adopted value `val` (src/ast.hh line 368). -/
  | child (T : ClassChain) (val : Option ASTNode)
  /-- An `ASTList<T>` slot with current contents `vals` (src/ast.hh line 398). -/
  | list (T : ClassChain) (vals : List ASTNode)
  /-- An `ASTValue<T>` slot holding the range its value was last constructed from
  (src/ast.hh lines 582-592). -/
  | value (val : Option InputRange)
deriving DecidableEq

/-- Embeds `member->construct(r, st, err)` dispatched over the slot strategies:
(return value, slot state after, stack after, diagnostics); `none` models an
abort in `popFromASTStack`'s assertion. -/
def ASTMember.construct : ASTMember → InputRange → ASTStack →
    Option (Bool × ASTMember × ASTStack × List Diag)
  | .ptr T opt v, r, st =>
    (ASTPtr.construct T opt v r st).map fun q =>
      (q.1, .ptr T opt q.2.1, q.2.2.1, q.2.2.2)
  | .child T v, r, st =>
    (ASTChild.construct T v r st).map fun q =>
      (q.1, .child T q.2.1, q.2.2.1, q.2.2.2)
  | .list T vals, r, st =>
    let q := ASTList.construct T r st vals
    some (q.1, .list T q.2.1, q.2.2, [])
  | .value _, r, st => some (true, .value (some r), st, [])

/-- Result of `ASTContainer::construct`: the returned bool, the final states
of the declared slots in declaration order, the `members` vector after the
pass, the stack after, and the diagnostics emitted. -/
structure ContainerResult where
  success : Bool
  fields : List ASTMember
  members : List ASTMember
  stack : ASTStack
  diags : List Diag
deriving DecidableEq

/-- The loop body of `ASTContainer::construct` (src/ast.cc lines 104-110):
processes the given members front-first (the caller passes the registration
list reversed, matching `rbegin`/`rend` iteration), threading the stack and
accumulating `success |= member->construct(r, st, err)` — a non-short-
circuiting bitwise OR, so every member's `construct` runs.  Returns the
updated members in processing order. -/
def constructMembers (r : InputRange) :
    List ASTMember → Bool → ASTStack →
    Option (Bool × List ASTMember × ASTStack × List Diag)
  | [], success, st => some (success, [], st, [])
  | m :: ms, success, st => do
    let q ← m.construct r st
    let rest ← constructMembers r ms (success || q.1) q.2.2.1
    return (rest.1, q.2.1 :: rest.2.1, rest.2.2.1, q.2.2.2 ++ rest.2.2.2)

/-- Embeds `ASTContainer::construct(r, st, err)` (src/ast.cc lines 101-115): starts
with `success = true`, iterates the `members` vector in reverse order with
`success |= member->construct(r, st, err)`, then clears the vector and
returns `success`.  `members` is the registration list in declaration order;
the result's `fields` are the slots' final states back in declaration order
and the result's `members` is the cleared vector. -/
def ASTContainer.construct (members : List ASTMember) (r : InputRange)
    (st : ASTStack) : Option ContainerResult := do
  let q ← constructMembers r members.reverse true st
  return ⟨q.1, q.2.1.reverse, [], q.2.2.1, q.2.2.2⟩

/-- Outcome of the top-level `parse` driver. -/
inductive ParseResult where
  /-- The grammar engine failed: `parse` returns `nullptr` (src/ast.cc 157). -/
  | noResult
  /-- Exactly one stack entry remained: its node is returned (src/ast.cc 168). -/
  | ok (node : ASTNode)
  /-- More than one entry remained: every residual entry's dynamic type is
  printed bottom-to-top (src/ast.cc 158-166), then `assert(st.size() == 1)`
  aborts.  `residuals` lists the printed dynamic class kinds in print order. -/
  | rootArityError (residuals : List Nat)
  /-- The engine succeeded with an empty stack: `assert(st.size() == 1)`
  aborts with nothing printed. -/
  | abortEmpty
deriving DecidableEq

/-- The top-level `parse(input, g, ws, err, d)` (src/ast.cc lines 153-169).
The external grammar engine is a collaborator: it is modelled by its two
observable effects, whether it succeeded (`engineOk`) and the stack its
reductions left behind (`st`). -/
def parse (engineOk : Bool) (st : ASTStack) : ParseResult :=
  if !engineOk then
    .noResult
  else if st.length > 1 then
    .rootArityError (st.reverse.map fun e => e.2.chain.headD 0)
  else
    match st with
    | [e] => .ok e.2
    | _ => .abortEmpty

/-- The reduction callback that `BindAST<T>`'s constructor registers for its
rule (src/ast.hh lines 552-566).  The allocation `new T()` followed by
`obj->construct(range, *st, err)` is modelled by the function `ctor`, which
returns the construct result, the freshly built node, the stack after the
construct call, and the diagnostics; the callback then either pushes
`(range, node)` and returns true, or returns false without pushing. -/
def BindAST.callback
    (ctor : InputRange → ASTStack → Option (Bool × ASTNode × ASTStack × List Diag))
    (range : InputRange) (st : ASTStack) : Option (Bool × ASTStack × List Diag) :=
  (ctor range st).map fun q =>
    if q.1 then
      (true, (range, q.2.1) :: q.2.2.1, q.2.2.2)
    else
      (false, q.2.2.1, q.2.2.2)

/-- Embeds `node->get_as<T>()` as called on the `unique_ptr` result of the untyped
`parse`: `get_as` explicitly tests its own `this` for null (src/ast.hh lines
186-187), so a null node yields null. -/
def get_asNullable (t : ClassChain) : Option ASTNode → Option ASTNode
  | none => none
  | some n => get_as t n

/-- Embeds `ASTParserDelegate::parse<T>(i, g, ws, err, ast)` (src/ast.hh lines
522-535): runs the untyped `parse`, downcasts the root to `T`; on success
stores the root into the caller's pointer `ast` and returns true; otherwise
returns false leaving `ast` unchanged.  The untyped driver's aborts
propagate as `none`. -/
def ASTParserDelegate.parse (T : ClassChain) (engineOk : Bool) (st : ASTStack)
    (ast : Option ASTNode) : Option (Bool × Option ASTNode) :=
  match Pegmatite.parse engineOk st with
  | .noResult =>
    match get_asNullable T none with
    | some n => some (true, some n)
    | none => some (false, ast)
  | .ok nd =>
    match get_asNullable T (some nd) with
    | some n => some (true, some n)
    | none => some (false, ast)
  | .rootArityError _ => none
  | .abortEmpty => none

/-- The containment test applied to a candidate stack entry `e` by a claimer
whose own range is `r` (src/ast.hh lines 297-298 and 429-430): true when the
entry's range starts before `r` or ends after `r`, i.e. the entry is *not*
contained in the claimer's range. -/
def outOfRange (e : ASTStackEntry) (r : InputRange) : Bool :=
  e.1.rbegin < r.rbegin || e.1.rend > r.rend

/-- A set of classes forming well-formed `PEGMATITE_RTTI` hierarchies: every
class chain is nonempty (every class at least contains its own id), every
proper tail of a chain is itself a registered class (each superclass of a
registered class is registered), and `classKind()` addresses are unique
(distinct static locals have distinct addresses), so a chain is determined by
its head. -/
def WFHierarchy (H : List ClassChain) : Prop :=
  (∀ c ∈ H, c ≠ []) ∧
  (∀ c ∈ H, ∀ s ∈ c.tails, s ≠ [] → s ∈ H) ∧
  (∀ c ∈ H, ∀ d ∈ H, c.headD 0 = d.headD 0 → c = d)

/-! Helper lemmas (shared; not tied to any single claim). -/

theorem isa_true_iff_mem (l : ClassChain) (x : Nat) : isa l x = true ↔ x ∈ l := by
  induction l with
  | nil => simp [isa]
  | cons k rest ih =>
    simp [isa, Bool.or_eq_true, beq_iff_eq, ih, List.mem_cons]

theorem get_as_of_isSome (T : ClassChain) (n : ASTNode)
    (h : (get_as T n).isSome = true) : get_as T n = some n := by
  unfold get_as at h ⊢
  by_cases hi : isa n.chain (classKind T) = true
  · simp [hi]
  · simp [hi] at h

/-! Claim theorems. -/

/-- C1: the claim states that `ASTContainer::construct` returns false whenever
a required member slot's `construct` returns false.  The code violates this:
`success` is initialised to `true` and only ever updated with `success |= ...`,
so the container returns `true` even when its single required slot fails.
Here the required `ASTPtr` slot fails with a StructuralMismatch diagnostic
(the candidate entry starts before the container's range), leaving the entry
unclaimed, and the container nevertheless returns `true`. -/
theorem claim1_container_true_despite_required_failure :
    ASTMember.construct (.ptr [1, 0] false none) ⟨2, 7⟩ [(⟨0, 5⟩, ⟨[2, 0], 8⟩)]
      = some (false, .ptr [1, 0] false none, [(⟨0, 5⟩, ⟨[2, 0], 8⟩)],
          [.structuralMismatch ⟨0, 5⟩ 1])
    ∧ ASTContainer.construct [.ptr [1, 0] false none] ⟨2, 7⟩
        [(⟨0, 5⟩, ⟨[2, 0], 8⟩)]
      = some ⟨true, [.ptr [1, 0] false none], [], [(⟨0, 5⟩, ⟨[2, 0], 8⟩)],
          [.structuralMismatch ⟨0, 5⟩ 1]⟩ := by
  exact ⟨by decide, by decide⟩

/-- C3 (counterexample): the claim states that an optional slot's `construct`
succeeds (returns true) on an empty stack.  In the code
`popFromASTStack<T, true>` returns `{false, nullptr}` on an empty stack
(src/ast.hh lines 287-290), so `ASTPtr<T, true>::construct` returns *false*
there (while claiming nothing and reporting nothing). -/
theorem claim3_counterexample :
    ASTPtr.construct [1, 0] true none ⟨0, 5⟩ [] = some (false, none, [], [])
    ∧ ¬ ASTPtr.construct [1, 0] true none ⟨0, 5⟩ []
        = some (true, none, [], []) := by
  exact ⟨by decide, by decide⟩

/-- C3 (amended): on an empty stack, an optional slot's `construct` returns
false while claiming no value, emitting no diagnostic, and leaving the slot
and the (empty) stack unchanged; a *required* slot on an empty stack is the
StarvedStack condition, which aborts in `assert(!st.empty())` (modelled as
`none`). -/
theorem claim3_optional_empty_stack (T : ClassChain) (r : InputRange)
    (ptr : Option ASTNode) :
    ASTPtr.construct T true ptr r [] = some (false, ptr, [], [])
    ∧ ASTPtr.construct T false ptr r [] = none := by
  constructor <;> rfl

/-- C3 (witness): the amended statement instantiated at a concrete slot. -/
theorem claim3_witness :
    ASTPtr.construct [1, 0] true none ⟨0, 5⟩ [] = some (false, none, [], [])
    ∧ ASTPtr.construct [1, 0] false none ⟨0, 5⟩ [] = none :=
  claim3_optional_empty_stack [1, 0] ⟨0, 5⟩ none

/-- C4 (counterexample): the claim states that an optional slot whose in-range
candidate fails the downcast succeeds with none.  In the code the
`Optional && !obj` branch of `popFromASTStack` returns `{false, nullptr}`
(src/ast.hh lines 323-325), so the optional slot's `construct` returns
*false* (claiming nothing, reporting nothing, entry left on the stack). -/
theorem claim4_counterexample :
    ASTPtr.construct [1, 0] true none ⟨0, 5⟩ [(⟨0, 5⟩, ⟨[2, 0], 8⟩)]
      = some (false, none, [(⟨0, 5⟩, ⟨[2, 0], 8⟩)], [])
    ∧ ¬ ASTPtr.construct [1, 0] true none ⟨0, 5⟩ [(⟨0, 5⟩, ⟨[2, 0], 8⟩)]
        = some (true, none, [(⟨0, 5⟩, ⟨[2, 0], 8⟩)], []) := by
  exact ⟨by decide, by decide⟩

/-- C4 (amended): when the tail entry is in range but its node fails the
downcast to `T`, an optional slot's `construct` returns false with no value
claimed, no diagnostic, the slot unchanged and the entry left on the stack;
a required slot reports a TypeMismatch diagnostic naming the expected class
kind and the entry's actual dynamic class kind, returns false, and leaves
the entry on the stack. -/
theorem claim4_type_mismatch (T : ClassChain) (r : InputRange)
    (e : ASTStackEntry) (st : ASTStack) (ptr : Option ASTNode)
    (hr : outOfRange e r = false) (hc : get_as T e.2 = none) :
    ASTPtr.construct T true ptr r (e :: st) = some (false, ptr, e :: st, [])
    ∧ ASTPtr.construct T false ptr r (e :: st)
      = some (false, ptr, e :: st,
          [.typeMismatch e.1 (classKind T) (e.2.chain.headD 0)]) := by
  unfold outOfRange at hr
  constructor <;> simp [ASTPtr.construct, popFromASTStack, hr, hc]

/-- C4 (witness): the amended statement at a concrete in-range, wrong-type
entry. -/
theorem claim4_witness :
    ASTPtr.construct [1, 0] true none ⟨0, 5⟩ [(⟨0, 5⟩, ⟨[2, 0], 8⟩)]
      = some (false, none, [(⟨0, 5⟩, ⟨[2, 0], 8⟩)], [])
    ∧ ASTPtr.construct [1, 0] false none ⟨0, 5⟩ [(⟨0, 5⟩, ⟨[2, 0], 8⟩)]
      = some (false, none, [(⟨0, 5⟩, ⟨[2, 0], 8⟩)],
          [.typeMismatch ⟨0, 5⟩ 1 2]) :=
  claim4_type_mismatch [1, 0] ⟨0, 5⟩ (⟨0, 5⟩, ⟨[2, 0], 8⟩) [] none
    (by decide) (by decide)

/-- C5: containment-boundary behaviour of the claiming pass.  A tail entry
whose range starts before `r`'s begin or ends after `r`'s end is never
claimed: an optional slot then succeeds with none, a required slot reports a
StructuralMismatch naming the expected class and fails, and a list slot stops
— in every case the entry stays on the stack.  A tail entry whose range
exactly equals `r` (and whose node is an instance of the slot's type) is
claimed: the single slots pop it and return it, and the list slot pops it and
prepends it. -/
theorem claim5_containment_boundary (T : ClassChain) (r : InputRange)
    (e : ASTStackEntry) (st : ASTStack) (ptr : Option ASTNode)
    (acc : List ASTNode) :
    (outOfRange e r = true →
      ASTPtr.construct T true ptr r (e :: st) = some (true, none, e :: st, [])
      ∧ ASTPtr.construct T false ptr r (e :: st)
        = some (false, ptr, e :: st, [.structuralMismatch e.1 (classKind T)])
      ∧ ASTList.construct T r (e :: st) acc = (true, acc, e :: st))
    ∧ (e.1 = r → isa e.2.chain (classKind T) = true →
      (∀ b : Bool,
        ASTPtr.construct T b ptr r (e :: st) = some (true, some e.2, st, []))
      ∧ ASTList.construct T r (e :: st) acc
        = ASTList.construct T r st (e.2 :: acc)) := by
  constructor
  · intro hout
    unfold outOfRange at hout
    refine ⟨?_, ?_, ?_⟩
    · simp [ASTPtr.construct, popFromASTStack, hout]
    · simp [ASTPtr.construct, popFromASTStack, hout]
    · simp [ASTList.construct, hout]
  · intro heq hisa
    have hout : (decide (e.1.rbegin < r.rbegin) || decide (e.1.rend > r.rend))
        = false := by
      rw [heq]; simp
    have hget : get_as T e.2 = some e.2 := by
      unfold get_as
      simp [hisa]
    constructor
    · intro b
      cases b <;> simp [ASTPtr.construct, popFromASTStack, hout, hget]
    · simp [ASTList.construct, hout, hget]

/-- C5 (witness): a sibling's entry (starting before the claimer's range) is
left on the stack by required, optional, and list claims, and an entry with
exactly the claimer's range and a matching type is popped. -/
theorem claim5_witness :
    (ASTPtr.construct [1, 0] true none ⟨2, 7⟩ [(⟨0, 5⟩, ⟨[1, 0], 7⟩)]
      = some (true, none, [(⟨0, 5⟩, ⟨[1, 0], 7⟩)], [])
    ∧ ASTPtr.construct [1, 0] false none ⟨2, 7⟩ [(⟨0, 5⟩, ⟨[1, 0], 7⟩)]
      = some (false, none, [(⟨0, 5⟩, ⟨[1, 0], 7⟩)],
          [.structuralMismatch ⟨0, 5⟩ 1])
    ∧ ASTList.construct [1, 0] ⟨2, 7⟩ [(⟨0, 5⟩, ⟨[1, 0], 7⟩)] []
      = (true, [], [(⟨0, 5⟩, ⟨[1, 0], 7⟩)]))
    ∧ (ASTPtr.construct [1, 0] true none ⟨2, 7⟩ [(⟨2, 7⟩, ⟨[1, 0], 7⟩)]
      = some (true, some ⟨[1, 0], 7⟩, [], [])) :=
  ⟨(claim5_containment_boundary [1, 0] ⟨2, 7⟩ (⟨0, 5⟩, ⟨[1, 0], 7⟩) [] none
      []).1 (by decide),
   ((claim5_containment_boundary [1, 0] ⟨2, 7⟩ (⟨2, 7⟩, ⟨[1, 0], 7⟩) [] none
      []).2 (by decide) (by decide)).1 true⟩

/-- Core of the list-arity property: if every entry of `taken` (the stack
tail, top first) is in range and downcasts to `T`, and the remaining stack
`rest` is empty or starts with an out-of-range entry, then
`ASTList::construct` claims exactly the `taken` entries, prepending each, so
the final list is `taken` in original left-to-right source order followed by
the previous contents. -/
theorem listConstruct_claims_all (T : ClassChain) (r : InputRange) :
    ∀ (taken rest : ASTStack) (acc : List ASTNode),
    (taken.all fun e => !(outOfRange e r) && (get_as T e.2).isSome) = true →
    (match rest with | [] => true | e :: _ => outOfRange e r) = true →
    ASTList.construct T r (taken ++ rest) acc
      = (true, (taken.reverse.map fun e => e.2) ++ acc, rest)
  | [], [], acc, _, _ => by simp [ASTList.construct]
  | [], e :: rest2, acc, _, hstop => by
    have hout : outOfRange e r = true := hstop
    unfold outOfRange at hout
    simp [ASTList.construct, hout]
  | e :: tk, rest, acc, hin, hstop => by
    rw [List.all_cons, Bool.and_eq_true] at hin
    obtain ⟨he, htk⟩ := hin
    rw [Bool.and_eq_true] at he
    have hout : outOfRange e r = false := by
      have := he.1
      cases h : outOfRange e r
      · rfl
      · rw [h] at this; exact absurd this (by decide)
    have hget : get_as T e.2 = some e.2 := get_as_of_isSome T e.2 he.2
    unfold outOfRange at hout
    have ih := listConstruct_claims_all T r tk rest (e.2 :: acc) htk hstop
    simp only [List.cons_append, ASTList.construct, hout, hget]
    simp [ih]

/-- C2: `ASTList<T>::construct` stops with success on an empty stack, stops
with success leaving the entry in place when the tail entry is out of range,
hard-fails (returns false) when an in-range tail entry fails the downcast,
and for `k ≥ 0` consecutive in-range entries of type `T` at the stack tail
claims exactly those `k` entries, restoring them to original left-to-right
source order by prepending. -/
theorem claim2_list_arity (T : ClassChain) (r : InputRange)
    (taken rest : ASTStack) (acc : List ASTNode)
    (hin : (taken.all fun e => !(outOfRange e r) && (get_as T e.2).isSome)
        = true)
    (hstop : (match rest with | [] => true | e :: _ => outOfRange e r)
        = true) :
    ASTList.construct T r (taken ++ rest) acc
      = (true, (taken.reverse.map fun e => e.2) ++ acc, rest)
    ∧ (∀ e st2, outOfRange e r = false → get_as T e.2 = none →
        ASTList.construct T r (e :: st2) acc = (false, acc, e :: st2))
    ∧ ASTList.construct T r [] acc = (true, acc, []) := by
  refine ⟨listConstruct_claims_all T r taken rest acc hin hstop, ?_, rfl⟩
  intro e st2 hout hget
  unfold outOfRange at hout
  simp [ASTList.construct, hout, hget]

/-- C2 (witness): two in-range entries of the element type sit on the tail
above an out-of-range sibling; the list claims exactly the two, in source
order. -/
theorem claim2_witness :
    ASTList.construct [1, 0] ⟨2, 7⟩
      [(⟨3, 5⟩, ⟨[1, 0], 2⟩), (⟨2, 3⟩, ⟨[1, 0], 1⟩), (⟨0, 2⟩, ⟨[2, 0], 8⟩)] []
      = (true, [⟨[1, 0], 1⟩, ⟨[1, 0], 2⟩], [(⟨0, 2⟩, ⟨[2, 0], 8⟩)]) := by
  have h := (claim2_list_arity [1, 0] ⟨2, 7⟩
    [(⟨3, 5⟩, ⟨[1, 0], 2⟩), (⟨2, 3⟩, ⟨[1, 0], 1⟩)] [(⟨0, 2⟩, ⟨[2, 0], 8⟩)] []
    (by decide) (by decide)).1
  simpa using h

/-- C6: a container's construction pass processes its registered slots in
exactly the reverse of registration order, each exactly once: constructing a
container whose registration list is `ms ++ [m]` first runs the last-declared
slot `m`'s `construct` on the incoming stack and then behaves as a pass over
the remaining slots `ms` on the resulting stack (so, recursively, every slot
runs exactly once, last-declared first); and after any completed pass the
container's `members` vector is cleared. -/
theorem claim6_reverse_order_and_cleared (ms : List ASTMember) (m : ASTMember)
    (r : InputRange) (st : ASTStack) :
    ASTContainer.construct (ms ++ [m]) r st
      = (ASTMember.construct m r st).bind (fun q =>
          (ASTContainer.construct ms r q.2.2.1).map (fun res =>
            ⟨res.success, res.fields ++ [q.2.1], [], res.stack,
              q.2.2.2 ++ res.diags⟩))
    ∧ (∀ res, ASTContainer.construct (ms ++ [m]) r st = some res →
        res.members = []) := by
  constructor
  · unfold ASTContainer.construct
    rw [List.reverse_append]
    simp only [List.reverse_singleton, List.singleton_append]
    cases hm : ASTMember.construct m r st with
    | none => simp [constructMembers, hm]
    | some q =>
      cases hrest : constructMembers r ms.reverse true q.2.2.1 with
      | none => simp [constructMembers, hm, Bool.true_or, hrest]
      | some rest => simp [constructMembers, hm, Bool.true_or, hrest]
  · intro res h
    unfold ASTContainer.construct at h
    cases hq : constructMembers r (ms ++ [m]).reverse true st with
    | none => rw [hq] at h; exact absurd h (by simp)
    | some q =>
      rw [hq] at h
      have h2 : (⟨q.1, q.2.1.reverse, [], q.2.2.1, q.2.2.2⟩ : ContainerResult)
          = res := Option.some.inj h
      rw [← h2]

/-- C6 (witness): the reverse-order characterisation at a concrete container
holding an `ASTValue` slot followed by an optional `ASTPtr` slot. -/
theorem claim6_witness :
    ASTContainer.construct ([ASTMember.value none]
        ++ [ASTMember.ptr [1, 0] true none]) ⟨0, 5⟩ []
      = (ASTMember.construct (ASTMember.ptr [1, 0] true none) ⟨0, 5⟩ []).bind
          (fun q =>
            (ASTContainer.construct [ASTMember.value none] ⟨0, 5⟩
                q.2.2.1).map (fun res =>
              ⟨res.success, res.fields ++ [q.2.1], [], res.stack,
                q.2.2.2 ++ res.diags⟩)) :=
  (claim6_reverse_order_and_cleared [ASTMember.value none]
    (ASTMember.ptr [1, 0] true none) ⟨0, 5⟩ []).1

/-- C7: the top-level parse driver returns no result when the grammar engine
fails; returns ownership of the sole entry's node when the engine succeeds
with exactly one stack entry; and when more than one entry remains it
surfaces a RootArityError whose diagnostic enumerates the dynamic class of
every residual entry (one per entry, bottom to top) instead of silently
returning one of them. -/
theorem claim7_parse_driver (st : ASTStack) (e : ASTStackEntry) :
    parse false st = ParseResult.noResult
    ∧ parse true [e] = ParseResult.ok e.2
    ∧ (1 < st.length →
        parse true st
          = ParseResult.rootArityError
              (st.reverse.map fun x => x.2.chain.headD 0)
        ∧ (st.reverse.map fun x => x.2.chain.headD 0).length = st.length) := by
  refine ⟨rfl, rfl, ?_⟩
  intro h
  constructor
  · simp [parse, h]
  · simp

/-- C7 (witness): the driver at a failed engine run, at a singleton stack, and
at a two-entry residual stack, where both residual entries are enumerated. -/
theorem claim7_witness :
    parse false [(⟨0, 2⟩, ⟨[1, 0], 7⟩)] = ParseResult.noResult
    ∧ parse true [(⟨0, 2⟩, ⟨[1, 0], 7⟩)] = ParseResult.ok ⟨[1, 0], 7⟩
    ∧ parse true [(⟨2, 7⟩, ⟨[2, 0], 8⟩), (⟨0, 2⟩, ⟨[1, 0], 7⟩)]
      = ParseResult.rootArityError
          (([(⟨2, 7⟩, ⟨[2, 0], 8⟩), (⟨0, 2⟩, ⟨[1, 0], 7⟩)] : ASTStack).reverse.map
            fun x => x.2.chain.headD 0) :=
  ⟨(claim7_parse_driver [(⟨0, 2⟩, ⟨[1, 0], 7⟩)] (⟨0, 2⟩, ⟨[1, 0], 7⟩)).1,
   (claim7_parse_driver [(⟨0, 2⟩, ⟨[1, 0], 7⟩)] (⟨0, 2⟩, ⟨[1, 0], 7⟩)).2.1,
   ((claim7_parse_driver [(⟨2, 7⟩, ⟨[2, 0], 8⟩), (⟨0, 2⟩, ⟨[1, 0], 7⟩)]
      (⟨0, 2⟩, ⟨[1, 0], 7⟩)).2.2 (by decide)).1⟩

/-- C8: the reduction callback registered by `BindAST<T>` allocates a fresh
node and runs its `construct`; when `construct` returns true the callback
pushes `(range, node)` onto the stack tail and signals match, and when
`construct` returns false it pushes nothing (the stack is exactly whatever
`construct` left) and signals no-match, so the partially built instance never
reaches the stack. -/
theorem claim8_bind_callback
    (ctor : InputRange → ASTStack →
      Option (Bool × ASTNode × ASTStack × List Diag))
    (range : InputRange) (st st2 : ASTStack) (b : Bool) (node : ASTNode)
    (ds : List Diag) (h : ctor range st = some (b, node, st2, ds)) :
    (b = true →
      BindAST.callback ctor range st = some (true, (range, node) :: st2, ds))
    ∧ (b = false →
      BindAST.callback ctor range st = some (false, st2, ds)) := by
  constructor <;> intro hb <;> subst hb <;> simp [BindAST.callback, h]

/-- C8 (witness): the callback for a node whose `construct` is an (empty)
container pass: the container succeeds, so the node is pushed with its
range. -/
theorem claim8_witness :
    BindAST.callback
      (fun r s => (ASTContainer.construct [] r s).map fun res =>
        (res.success, ⟨[3, 0], 9⟩, res.stack, res.diags))
      ⟨0, 5⟩ []
      = some (true, [(⟨0, 5⟩, ⟨[3, 0], 9⟩)], []) :=
  (claim8_bind_callback
    (fun r s => (ASTContainer.construct [] r s).map fun res =>
      (res.success, ⟨[3, 0], 9⟩, res.stack, res.diags))
    ⟨0, 5⟩ [] [] true ⟨[3, 0], 9⟩ [] (by decide)).1 rfl

/-- C9: the typed convenience wrapper `ASTParserDelegate::parse<T>` returns
true and stores the parsed root into the caller's pointer exactly when the
root's downcast to `T` succeeds; when the untyped parse produced no result
(engine failure) or the downcast fails, it returns false and leaves the
caller's pointer unchanged, with no exception — failure is an ordinary
boolean. -/
theorem claim9_typed_parse (T : ClassChain) (st : ASTStack)
    (e : ASTStackEntry) (ast : Option ASTNode) :
    ASTParserDelegate.parse T false st ast = some (false, ast)
    ∧ (isa e.2.chain (classKind T) = true →
        ASTParserDelegate.parse T true [e] ast = some (true, some e.2))
    ∧ (isa e.2.chain (classKind T) = false →
        ASTParserDelegate.parse T true [e] ast = some (false, ast)) := by
  refine ⟨rfl, ?_, ?_⟩ <;> intro h <;>
    simp [ASTParserDelegate.parse, parse, get_asNullable, get_as, h]

/-- C9 (witness): the wrapper at an engine failure, at a root of the expected
type, and at a root of a different type. -/
theorem claim9_witness :
    ASTParserDelegate.parse [1, 0] false [(⟨0, 5⟩, ⟨[1, 0], 7⟩)]
        (some ⟨[2, 0], 8⟩)
      = some (false, some ⟨[2, 0], 8⟩)
    ∧ ASTParserDelegate.parse [1, 0] true [(⟨0, 5⟩, ⟨[1, 0], 7⟩)] none
      = some (true, some ⟨[1, 0], 7⟩)
    ∧ ASTParserDelegate.parse [2, 0] true [(⟨0, 5⟩, ⟨[1, 0], 7⟩)] none
      = some (false, none) :=
  ⟨(claim9_typed_parse [1, 0] [(⟨0, 5⟩, ⟨[1, 0], 7⟩)] (⟨0, 5⟩, ⟨[1, 0], 7⟩)
      (some ⟨[2, 0], 8⟩)).1,
   (claim9_typed_parse [1, 0] [(⟨0, 5⟩, ⟨[1, 0], 7⟩)] (⟨0, 5⟩, ⟨[1, 0], 7⟩)
      none).2.1 (by decide),
   (claim9_typed_parse [2, 0] [(⟨0, 5⟩, ⟨[1, 0], 7⟩)] (⟨0, 5⟩, ⟨[1, 0], 7⟩)
      none).2.2 (by decide)⟩

/-- C10: soundness and completeness of the `PEGMATITE_RTTI` downcast for
single-inheritance hierarchies.  In a well-formed hierarchy `H` (nonempty
chains, superclass-closed, globally unique `classKind()` addresses), for a
node `n` of dynamic class `n.chain` and a target class `t`, `get_as`
returns the same object exactly when `t` is `n`'s class or one of its
ancestors up to `ASTNode` (that is, `t`'s chain is a suffix of `n.chain`),
returns null for every other registered `t`, and the underlying
`isa(t.classKind())` test holds exactly on that ancestor chain. -/
theorem claim10_rtti_downcast (H : List ClassChain) (hwf : WFHierarchy H)
    (n : ASTNode) (t : ClassChain) (hc : n.chain ∈ H) (ht : t ∈ H) :
    (get_as t n = some n ↔ t <:+ n.chain)
    ∧ (get_as t n = none ↔ ¬ t <:+ n.chain)
    ∧ (isa n.chain (classKind t) = true ↔ t <:+ n.chain) := by
  obtain ⟨hne, hclosed, hinj⟩ := hwf
  have key : isa n.chain (classKind t) = true ↔ t <:+ n.chain := by
    rw [isa_true_iff_mem]
    constructor
    · intro hx
      obtain ⟨as, bs, hsplit⟩ := List.append_of_mem hx
      have hsuf : (classKind t :: bs) <:+ n.chain := ⟨as, hsplit.symm⟩
      have hmem : (classKind t :: bs) ∈ H :=
        hclosed n.chain hc _ ((List.mem_tails _ _).mpr hsuf)
          (List.cons_ne_nil _ _)
      have heads : t.headD 0 = (classKind t :: bs).headD 0 := rfl
      rw [hinj t ht _ hmem heads]
      exact hsuf
    · intro hsuf
      have hnet := hne t ht
      cases t with
      | nil => exact absurd rfl hnet
      | cons th tt =>
        exact hsuf.subset (by simp [classKind])
  refine ⟨?_, ?_, key⟩
  · cases hisa : isa n.chain (classKind t) with
    | true =>
      simp only [get_as, hisa, if_true]
      simp [key.mp hisa]
    | false =>
      simp only [get_as, hisa]
      constructor
      · intro h; exact absurd h (by simp)
      · intro h
        exact absurd (key.mpr h) (by simp [hisa])
  · cases hisa : isa n.chain (classKind t) with
    | true =>
      simp only [get_as, hisa, if_true]
      constructor
      · intro h; exact absurd h (by simp)
      · intro h; exact absurd (key.mp hisa) h
    | false =>
      simp only [get_as, hisa]
      constructor
      · intro _
        intro hsuf
        exact absurd (key.mpr hsuf) (by simp [hisa])
      · intro _; rfl

/-- C10 (witness): a four-class hierarchy (root `0`, chain `2 → 1 → 0`, and an
unrelated `3 → 0`): the downcast of a node of dynamic class `2` to its
ancestor `1` returns the node, and to the unrelated class `3` returns null. -/
theorem claim10_witness :
    get_as [1, 0] ⟨[2, 1, 0], 5⟩ = some ⟨[2, 1, 0], 5⟩
    ∧ get_as [3, 0] ⟨[2, 1, 0], 5⟩ = none :=
  ⟨(claim10_rtti_downcast [[0], [1, 0], [2, 1, 0], [3, 0]]
      (by refine ⟨?_, ?_, ?_⟩ <;> decide) ⟨[2, 1, 0], 5⟩ [1, 0]
      (by decide) (by decide)).1.mpr ⟨[2], rfl⟩,
   (claim10_rtti_downcast [[0], [1, 0], [2, 1, 0], [3, 0]]
      (by refine ⟨?_, ?_, ?_⟩ <;> decide) ⟨[2, 1, 0], 5⟩ [3, 0]
      (by decide) (by decide)).2.1.mpr (by decide)⟩

end Pegmatite
